import Mathlib

/-!
Shallow embedding of the gtsam point types Point2 (Point2.h), Point3 (Point3.h)
and StereoPoint2 (StereoPoint2.h).  Real-valued coordinates are modelled as ℚ
(exact real arithmetic); the framework's coordinate `Vector` is a `List ℚ` and
its `Matrix` a row-major `List (List ℚ)`.  An out-of-bounds coordinate read
`v(i)` (undefined behaviour in the reference) is modelled by `Option`: a
constructor that would read past the end of its vector returns `none`.
-/

namespace gtsam

/-- Row-major matrix of the external numeric layer. -/
abbrev Matrix := List (List ℚ)

/-- Modelled from the spec: `eye(n)` of the external matrix layer (out of scope
in the source), the n×n identity matrix used for the Jacobians. -/
def eye (n : ℕ) : Matrix :=
  (List.range n).map fun i => (List.range n).map fun j => if i = j then (1 : ℚ) else 0

/-- Modelled from the spec: unary matrix negation of the external matrix layer,
used for `-eye(2)` in `between`. -/
def matNeg (m : Matrix) : Matrix := m.map (List.map Neg.neg)

/-- A 2D point (Point2.h): fields x_, y_; dimension 2. -/
structure Point2 where
  x : ℚ
  y : ℚ
deriving DecidableEq

namespace Point2

/-- `Point2(const Vector& v) : x_(v(0)), y_(v(1))` — no dimension check;
`none` models the undefined out-of-bounds read when the vector has fewer
than 2 entries. -/
def fromVector : List ℚ → Option Point2
  | x :: y :: _ => some ⟨x, y⟩
  | _ => none

/-- `operator+`: component-wise addition. -/
def add (p q : Point2) : Point2 := ⟨p.x + q.x, p.y + q.y⟩

/-- `operator-` (binary): component-wise subtraction. -/
def sub (p q : Point2) : Point2 := ⟨p.x - q.x, p.y - q.y⟩

/-- `compose`: `*this + p1`. -/
def compose (p q : Point2) : Point2 := p.add q

/-- `inverse()`: `Point2(-x_, -y_)`. -/
def inverse (p : Point2) : Point2 := ⟨-p.x, -p.y⟩

/-- `operator==`: `x_==q.x_ && q.y_==q.y_` — note the second conjunct compares
`q.y_` with itself, exactly as in the source (Point2.h line 70). -/
def eq (p q : Point2) : Bool := decide (p.x = q.x) && decide (q.y = q.y)

/-- `Expmap(v)`: `Point2(v)`. -/
def Expmap (v : List ℚ) : Option Point2 := fromVector v

/-- `Logmap(dp)`: `Vector_(2, dp.x(), dp.y())`. -/
def Logmap (p : Point2) : List ℚ := [p.x, p.y]

/-- `vector()`: `Vector_(2, x_, y_)`. -/
def vector (p : Point2) : List ℚ := [p.x, p.y]

/-- Modelled from the spec: the body of `Point2::equals` is not under src/
(only declared, Point2.h line 42); the spec defines equality-with-tolerance as
all corresponding fields differing by less than the tolerance in absolute
value. -/
def equals (p q : Point2) (tol : ℚ) : Bool :=
  decide (|p.x - q.x| < tol) && decide (|p.y - q.y| < tol)

end Point2

/-- Free `compose` with optional Jacobian output slots (Point2.h lines 98-103):
`if(H1) *H1 = eye(2); if(H2) *H2 = eye(2); return compose(p1, p2);`.
A slot is `some m` when the caller supplied it (holding its prior contents `m`)
and `none` when not supplied; the result carries the new slot contents. -/
def composeH (p1 p2 : Point2) (H1 H2 : Option Matrix) :
    Point2 × Option Matrix × Option Matrix :=
  (p1.compose p2, H1.map fun _ => eye 2, H2.map fun _ => eye 2)

/-- `Dcompose1(p1, p0)`: `Matrix_(2,2, 1.0, 0.0, 0.0, 1.0)`. -/
def Dcompose1 (p1 p0 : Point2) : Matrix := [[1, 0], [0, 1]]

/-- `Dcompose2(p1, p0)`: `Matrix_(2,2, 1.0, 0.0, 0.0, 1.0)`. -/
def Dcompose2 (p1 p0 : Point2) : Matrix := [[1, 0], [0, 1]]

/-- `between(p1, p2)`: `p2 - p1`. -/
def between (p1 p2 : Point2) : Point2 := p2.sub p1

/-- Free `between` with optional Jacobian output slots (Point2.h lines 115-120):
`if(H1) *H1 = -eye(2); if(H2) *H2 = eye(2); return between(p1, p2);`. -/
def betweenH (p1 p2 : Point2) (H1 H2 : Option Matrix) :
    Point2 × Option Matrix × Option Matrix :=
  (between p1 p2, H1.map fun _ => matNeg (eye 2), H2.map fun _ => eye 2)

/-- A 3D point (Point3.h): fields x_, y_, z_; dimension 3. -/
structure Point3 where
  x : ℚ
  y : ℚ
  z : ℚ
deriving DecidableEq

namespace Point3

/-- `Point3(const Vector& v) : x_(v(0)), y_(v(1)), z_(v(2))` — no dimension
check; `none` models the undefined out-of-bounds read. -/
def fromVector : List ℚ → Option Point3
  | x :: y :: z :: _ => some ⟨x, y, z⟩
  | _ => none

/-- Modelled from the spec: the body of `Point3::operator+` is not under src/
(only declared, Point3.h line 77); the spec says composition is component-wise
addition. -/
def add (p q : Point3) : Point3 := ⟨p.x + q.x, p.y + q.y, p.z + q.z⟩

/-- `compose`: `*this + p1`. -/
def compose (p q : Point3) : Point3 := p.add q

/-- `inverse()`: `Point3(-x_, -y_, -z_)`. -/
def inverse (p : Point3) : Point3 := ⟨-p.x, -p.y, -p.z⟩

/-- `Expmap(v)`: `Point3(v)`. -/
def Expmap (v : List ℚ) : Option Point3 := fromVector v

/-- `Logmap(dp)`: `Vector_(3, dp.x(), dp.y(), dp.z())`. -/
def Logmap (p : Point3) : List ℚ := [p.x, p.y, p.z]

/-- `vector()`: the 3-vector (x_, y_, z_) in field order. -/
def vector (p : Point3) : List ℚ := [p.x, p.y, p.z]

/-- Modelled from the spec: the body of `Point3::equals` is not under src/
(only declared, Point3.h line 40); spec definition as for Point2. -/
def equals (p q : Point3) (tol : ℚ) : Bool :=
  decide (|p.x - q.x| < tol) && decide (|p.y - q.y| < tol) && decide (|p.z - q.z| < tol)

/-- `Dcompose1(p1, p0)` for Point3: `Matrix_(3,3, 1,0,0, 0,1,0, 0,0,1)`. -/
def Dcompose1 (p1 p0 : Point3) : Matrix := [[1, 0, 0], [0, 1, 0], [0, 0, 1]]

/-- `Dcompose2(p1, p0)` for Point3: `Matrix_(3,3, 1,0,0, 0,1,0, 0,0,1)`. -/
def Dcompose2 (p1 p0 : Point3) : Matrix := [[1, 0, 0], [0, 1, 0], [0, 0, 1]]

end Point3

/-- A 2D stereo point (StereoPoint2.h): fields uL_, uR_, v_; dimension 3. -/
structure StereoPoint2 where
  uL : ℚ
  uR : ℚ
  v : ℚ
deriving DecidableEq

namespace StereoPoint2

/-- `equals(q, tol)`: `fabs(uL_-q.uL_) < tol && fabs(uR_-q.uR_) < tol &&
fabs(v_-q.v_) < tol` (StereoPoint2.h lines 47-50, strict comparison). -/
def equals (p q : StereoPoint2) (tol : ℚ) : Bool :=
  decide (|p.uL - q.uL| < tol) && decide (|p.uR - q.uR| < tol) && decide (|p.v - q.v| < tol)

/-- `vector()`: `Vector_(3, uL_, uR_, v_)`. -/
def vector (p : StereoPoint2) : List ℚ := [p.uL, p.uR, p.v]

/-- `operator+`: component-wise addition. -/
def add (p b : StereoPoint2) : StereoPoint2 := ⟨p.uL + b.uL, p.uR + b.uR, p.v + b.v⟩

/-- `operator-`: component-wise subtraction. -/
def sub (p b : StereoPoint2) : StereoPoint2 := ⟨p.uL - b.uL, p.uR - b.uR, p.v - b.v⟩

/-- `point2()`: `Point2(uL_, v_)`. -/
def point2 (p : StereoPoint2) : Point2 := ⟨p.uL, p.v⟩

/-- `compose`: `*this + p1`. -/
def compose (p q : StereoPoint2) : StereoPoint2 := p.add q

/-- `inverse()`: `StereoPoint2() - (*this)`. -/
def inverse (p : StereoPoint2) : StereoPoint2 := sub ⟨0, 0, 0⟩ p

/-- `Expmap(d)`: `StereoPoint2(d(0), d(1), d(2))` — no dimension check;
`none` models the undefined out-of-bounds read. -/
def Expmap : List ℚ → Option StereoPoint2
  | a :: b :: c :: _ => some ⟨a, b, c⟩
  | _ => none

/-- `Logmap(p)`: `p.vector()`. -/
def Logmap (p : StereoPoint2) : List ℚ := p.vector

end StereoPoint2

/-! Theorems about the embedded operations. -/

/-- C1: evaluating the vector constructors at over-long vectors: constructing a
Point2 from the length-3 vector [1, 2, 3] does not fail — it succeeds and
yields Point2(1, 2) from the first two entries; likewise StereoPoint2::Expmap
on a length-4 vector succeeds.  No InvalidDimension validation exists in the
code. -/
theorem point2_fromVector_length3_succeeds :
    Point2.fromVector [1, 2, 3] = some ⟨1, 2⟩ ∧
    StereoPoint2.Expmap [1, 2, 3, 4] = some ⟨1, 2, 3⟩ :=
  ⟨rfl, rfl⟩

/-- C2: Point2's `operator==` depends only on the x coordinates: its second
conjunct compares `q.y_` with itself, so any two points with equal x but
different y compare equal. -/
theorem point2_eq_ignores_y (p q : Point2) (hx : p.x = q.x) (hy : p.y ≠ q.y) :
    Point2.eq p q = true := by
  simp [Point2.eq, hx]

theorem point2_eq_ignores_y_witness :
    (Point2.mk 1 2).x = (Point2.mk 1 3).x ∧ (Point2.mk 1 2).y ≠ (Point2.mk 1 3).y ∧
    Point2.eq (Point2.mk 1 2) (Point2.mk 1 3) = true :=
  ⟨rfl, by decide, point2_eq_ignores_y ⟨1, 2⟩ ⟨1, 3⟩ rfl (by decide)⟩

/-- C3 counterexample: `equals` compares with strict `<`, so at tolerance 0 —
which satisfies tol ≥ 0 — `equals(p, p, 0)` is false even though every field of
the two arguments is exactly equal, refuting both halves of the claim. -/
theorem stereo_equals_zero_tol_not_reflexive :
    (0 : ℚ) ≤ 0 ∧ StereoPoint2.equals ⟨0, 0, 0⟩ ⟨0, 0, 0⟩ 0 = false := by
  refine ⟨le_refl 0, ?_⟩
  norm_num [StereoPoint2.equals]

/-- The absolute value of a rational is never strictly below zero. -/
theorem rat_abs_not_lt_zero (a : ℚ) : ¬ |a| < 0 := not_lt.mpr (abs_nonneg a)

/-- C3 amended: equality-with-tolerance is reflexive for every strictly
positive tolerance, and at tolerance exactly 0 `equals` is false for every
pair of points (the comparison is strict), for all three point types. -/
theorem equals_reflexive_pos_tol :
    (∀ tol : ℚ, 0 < tol → ∀ p : StereoPoint2, StereoPoint2.equals p p tol = true) ∧
    (∀ tol : ℚ, 0 < tol → ∀ p : Point2, Point2.equals p p tol = true) ∧
    (∀ tol : ℚ, 0 < tol → ∀ p : Point3, Point3.equals p p tol = true) ∧
    (∀ p q : StereoPoint2, StereoPoint2.equals p q 0 = false) ∧
    (∀ p q : Point2, Point2.equals p q 0 = false) ∧
    (∀ p q : Point3, Point3.equals p q 0 = false) := by
  refine ⟨fun tol h p => ?_, fun tol h p => ?_, fun tol h p => ?_,
    fun p q => ?_, fun p q => ?_, fun p q => ?_⟩
  · simp [StereoPoint2.equals, sub_self, abs_zero, h]
  · simp [Point2.equals, sub_self, abs_zero, h]
  · simp [Point3.equals, sub_self, abs_zero, h]
  · simp [StereoPoint2.equals, rat_abs_not_lt_zero]
  · simp [Point2.equals, rat_abs_not_lt_zero]
  · simp [Point3.equals, rat_abs_not_lt_zero]

theorem equals_reflexive_pos_tol_witness :
    (0 : ℚ) < 1 ∧ StereoPoint2.equals ⟨0, 0, 0⟩ ⟨0, 0, 0⟩ 1 = true :=
  ⟨one_pos, equals_reflexive_pos_tol.1 1 one_pos ⟨0, 0, 0⟩⟩

/-- C4: Expmap and Logmap are mutually inverse identity embeddings:
Logmap(Expmap(v)) = v for every vector of the type's dimension, and
Expmap(Logmap(p)) = p for every point, for Point2, Point3 and StereoPoint2. -/
theorem expmap_logmap_identity :
    (∀ v : List ℚ, v.length = 2 → (Point2.Expmap v).map Point2.Logmap = some v) ∧
    (∀ p : Point2, Point2.Expmap p.Logmap = some p) ∧
    (∀ v : List ℚ, v.length = 3 → (Point3.Expmap v).map Point3.Logmap = some v) ∧
    (∀ p : Point3, Point3.Expmap p.Logmap = some p) ∧
    (∀ v : List ℚ, v.length = 3 → (StereoPoint2.Expmap v).map StereoPoint2.Logmap = some v) ∧
    (∀ p : StereoPoint2, StereoPoint2.Expmap p.Logmap = some p) := by
  refine ⟨fun v hv => ?_, fun p => rfl, fun v hv => ?_, fun p => rfl,
    fun v hv => ?_, fun p => rfl⟩
  · obtain ⟨a, b, rfl⟩ := List.length_eq_two.mp hv
    rfl
  · obtain ⟨a, b, c, rfl⟩ := List.length_eq_three.mp hv
    rfl
  · obtain ⟨a, b, c, rfl⟩ := List.length_eq_three.mp hv
    rfl

theorem expmap_logmap_identity_witness :
    ([(1 : ℚ), 2] : List ℚ).length = 2 ∧
    (Point2.Expmap [1, 2]).map Point2.Logmap = some [1, 2] :=
  ⟨rfl, expmap_logmap_identity.1 [1, 2] rfl⟩

/-- C5: composing a point with its own inverse yields the all-zero identity
value, exactly, for all three point types. -/
theorem compose_inverse_is_identity :
    (∀ p : Point2, p.compose p.inverse = Point2.mk 0 0) ∧
    (∀ p : Point3, p.compose p.inverse = Point3.mk 0 0 0) ∧
    (∀ p : StereoPoint2, p.compose p.inverse = StereoPoint2.mk 0 0 0) := by
  refine ⟨fun p => ?_, fun p => ?_, fun p => ?_⟩
  · simp [Point2.compose, Point2.add, Point2.inverse, Point2.mk.injEq]
  · simp [Point3.compose, Point3.add, Point3.inverse, Point3.mk.injEq]
  · simp [StereoPoint2.compose, StereoPoint2.add, StereoPoint2.inverse,
      StereoPoint2.sub, StereoPoint2.mk.injEq]

/-- C6: the Jacobians of compose and between are constant for every input
pair: `Dcompose1`/`Dcompose2` return the 2×2 (Point2) resp. 3×3 (Point3)
identity, the optional-output compose overload writes the 2×2 identity into
each requested slot, and the optional-output between overload writes negative
identity into the first slot and identity into the second. -/
theorem jacobians_are_identity :
    (∀ p q : Point2, Dcompose1 p q = eye 2 ∧ Dcompose2 p q = eye 2) ∧
    (∀ (p q : Point2) (m1 m2 : Matrix),
      (composeH p q (some m1) (some m2)).2.1 = some (eye 2) ∧
      (composeH p q (some m1) (some m2)).2.2 = some (eye 2)) ∧
    (∀ (p q : Point2) (m1 m2 : Matrix),
      (betweenH p q (some m1) (some m2)).2.1 = some (matNeg (eye 2)) ∧
      (betweenH p q (some m1) (some m2)).2.2 = some (eye 2)) ∧
    (∀ p q : Point3, Point3.Dcompose1 p q = eye 3 ∧ Point3.Dcompose2 p q = eye 3) :=
  ⟨fun _ _ => ⟨rfl, rfl⟩,
   fun _ _ _ _ => ⟨rfl, rfl⟩,
   fun _ _ _ _ => ⟨rfl, rfl⟩,
   fun _ _ => ⟨rfl, rfl⟩⟩

/-- C7: in the optional-output compose and between overloads a Jacobian slot
is written if and only if the caller supplied it — an unsupplied slot stays
untouched — and the returned point value equals the plain (no-Jacobian)
result regardless of which slots are requested. -/
theorem jacobian_slots_written_iff_requested :
    (∀ (p q : Point2) (H1 H2 : Option Matrix),
      (composeH p q H1 H2).1 = p.compose q ∧
      ((composeH p q H1 H2).2.1).isSome = H1.isSome ∧
      ((composeH p q H1 H2).2.2).isSome = H2.isSome ∧
      (composeH p q none H2).2.1 = none ∧
      (composeH p q H1 none).2.2 = none) ∧
    (∀ (p q : Point2) (H1 H2 : Option Matrix),
      (betweenH p q H1 H2).1 = between p q ∧
      ((betweenH p q H1 H2).2.1).isSome = H1.isSome ∧
      ((betweenH p q H1 H2).2.2).isSome = H2.isSome ∧
      (betweenH p q none H2).2.1 = none ∧
      (betweenH p q H1 none).2.2 = none) := by
  refine ⟨fun p q H1 H2 => ?_, fun p q H1 H2 => ?_⟩ <;>
    rcases H1 with _ | m1 <;> rcases H2 with _ | m2 <;>
    simp [composeH, betweenH]

/-- C8: `between(p, q)` is the component-wise difference q - p, and composing
p with between(p, q) recovers q exactly. -/
theorem between_difference_compose (p q : Point2) :
    between p q = q.sub p ∧ p.compose (between p q) = q := by
  obtain ⟨qx, qy⟩ := q
  refine ⟨rfl, ?_⟩
  simp [between, Point2.sub, Point2.compose, Point2.add, Point2.mk.injEq]

/-- C9: compose is commutative and associative for all three point types,
because it is component-wise rational addition. -/
theorem compose_comm_assoc :
    (∀ p q r : Point2, p.compose q = q.compose p ∧
      (p.compose q).compose r = p.compose (q.compose r)) ∧
    (∀ p q r : Point3, p.compose q = q.compose p ∧
      (p.compose q).compose r = p.compose (q.compose r)) ∧
    (∀ p q r : StereoPoint2, p.compose q = q.compose p ∧
      (p.compose q).compose r = p.compose (q.compose r)) := by
  refine ⟨fun p q r => ?_, fun p q r => ?_, fun p q r => ?_⟩
  · constructor <;>
      simp [Point2.compose, Point2.add, Point2.mk.injEq] <;>
      constructor <;> ring
  · constructor <;>
      simp [Point3.compose, Point3.add, Point3.mk.injEq] <;>
      refine ⟨by ring, by ring, by ring⟩
  · constructor <;>
      simp [StereoPoint2.compose, StereoPoint2.add, StereoPoint2.mk.injEq] <;>
      refine ⟨by ring, by ring, by ring⟩

/-- C10: `point2()` projects a StereoPoint2 (uL, uR, v) to the Point2 (uL, v),
discarding uR; in particular StereoPoint2(10, 8, 5).point2() = Point2(10, 5). -/
theorem stereo_point2_projects_left :
    (∀ p : StereoPoint2, p.point2 = Point2.mk p.uL p.v) ∧
    (StereoPoint2.mk 10 8 5).point2 = Point2.mk 10 5 :=
  ⟨fun _ => rfl, rfl⟩

end gtsam
